import Mathlib

/-!
Verification of the NetStress C driver shim (`driver_shim.c`) against its
specification.  The C functions are shallowly embedded as Lean functions:
bytes are `Fin 256`, the 32-bit checksum accumulator is a `Nat` reduced mod
`2^32` at each addition, `int` values that can be negative are `Int`, and
the end-around-carry fold loop is embedded with an explicit fuel argument
(fuel equal to the accumulator always suffices because each loop iteration
strictly decreases it).  Functions that drive the kernel (`sendto`,
io_uring, the XDP rings) are embedded over an explicit environment
describing the system-call results, and return the data they hand to that
environment so that the specification's claims about it can be stated.
-/

namespace DriverShim

/-- A byte, as stored in a `uint8_t` buffer. -/
abbrev Byte := Fin 256

/-- Fuelled embedding of the C fold loop
`while (sum >> 16) sum = (sum & 0xFFFF) + (sum >> 16);`.
`sum >> 16` is nonzero exactly when `sum ≥ 65536`. -/
def foldAux : Nat → Nat → Nat
  | 0, sum => sum
  | fuel + 1, sum =>
    if sum < 65536 then sum
    else foldAux fuel (sum % 65536 + sum / 65536)

/-- The fold loop run to completion: fuel `sum` suffices since every
iteration strictly decreases the accumulator. -/
def foldCarry (sum : Nat) : Nat := foldAux sum sum

/-- The 16-bit big-endian words the C summing loop
`for (i = 0; i + 1 < len; i += 2) sum += ((uint16_t)data[i] << 8) | data[i+1];`
adds, with the trailing odd byte promoted to the high byte
(`if (i < len) sum += (uint16_t)data[i] << 8;`). -/
def words16 : List Byte → List Nat
  | a :: b :: rest => (a.val * 256 + b.val) :: words16 rest
  | [a] => [a.val * 256]
  | [] => []

/-- Left-to-right accumulation of a word list into the `uint32_t sum`,
wrapping mod `2^32` at each addition as the C type does. -/
def sum32 (ws : List Nat) : Nat := ws.foldl (fun sum w => (sum + w) % 4294967296) 0

/-- `calculate_checksum` (driver_shim.c:111-131): sum 16-bit big-endian
words, promote a trailing odd byte, fold end-around carries, and return the
truncated bitwise complement `(uint16_t)(~sum)`, which for `sum ≤ 0xFFFF`
equals `0xFFFF - sum`. -/
def calculate_checksum (data : List Byte) : Nat :=
  65535 - foldCarry (sum32 (words16 data))

/-- `calculate_transport_checksum` (driver_shim.c:133-160): seed the
accumulator with the pseudo-header
(`(src_ip >> 16) & 0xFFFF`, `src_ip & 0xFFFF`, the same for `dst_ip`,
`protocol`, `len`), then the same word loop, fold and complement. -/
def calculate_transport_checksum (src_ip dst_ip protocol : Nat)
    (data : List Byte) : Nat :=
  65535 - foldCarry (sum32
    ([src_ip / 65536 % 65536, src_ip % 65536,
      dst_ip / 65536 % 65536, dst_ip % 65536,
      protocol, data.length] ++ words16 data))

/-- The 13-byte UDP segment of scenario S2: header
(src_port 1234, dst_port 5678, length 13, checksum 0) then `"Hello"`. -/
def s2_segment : List Byte :=
  [0x04, 0xD2, 0x16, 0x2E, 0x00, 0x0D, 0x00, 0x00, 0x48, 0x65, 0x6C, 0x6C, 0x6F]

/-- The S2 segment with the checksum field (bytes 6-7) filled with `c`. -/
def s2_segment_filled (c : Nat) : List Byte :=
  [0x04, 0xD2, 0x16, 0x2E, 0x00, 0x0D,
   ⟨c / 256 % 256, Nat.mod_lt _ (by norm_num)⟩,
   ⟨c % 256, Nat.mod_lt _ (by norm_num)⟩,
   0x48, 0x65, 0x6C, 0x6C, 0x6F]

/-- The 20-byte IPv4 header of scenario S1. -/
def s1_header : List Byte :=
  [0x45, 0x00, 0x00, 0x3C, 0x1C, 0x46, 0x40, 0x00, 0x40, 0x06,
   0x00, 0x00, 0xAC, 0x10, 0x0A, 0x63, 0xAC, 0x10, 0x0A, 0x0C]

/-- The two bytes of a computed checksum, high byte first, as appended to a
buffer by a caller (the checksum is at most `0xFFFF`, so `c / 256 % 256` is
just the high byte `c / 256`). -/
def checksumBytes (data : List Byte) : List Byte :=
  [⟨calculate_checksum data / 256 % 256, Nat.mod_lt _ (by norm_num)⟩,
   ⟨calculate_checksum data % 256, Nat.mod_lt _ (by norm_num)⟩]

/-- `backend_type_t` (driver_shim.c:833-840). -/
inductive backend_type_t where
  | BACKEND_NONE
  | BACKEND_RAW_SOCKET
  | BACKEND_SENDMMSG
  | BACKEND_IO_URING
  | BACKEND_AF_XDP
  | BACKEND_DPDK
  deriving DecidableEq

/-- The numeric value of each enumerator in the C enum.  These values order
the backends by selection priority:
dpdk (5) > af_xdp (4) > io_uring (3) > sendmmsg (2) > raw_socket (1). -/
def backend_type_t.code : backend_type_t → Nat
  | .BACKEND_NONE => 0
  | .BACKEND_RAW_SOCKET => 1
  | .BACKEND_SENDMMSG => 2
  | .BACKEND_IO_URING => 3
  | .BACKEND_AF_XDP => 4
  | .BACKEND_DPDK => 5

/-- `system_capabilities_t` (driver_shim.c:842-852).  The `has_*` flags are
written only as 0 or 1 by `detect_capabilities` and tested for nonzero-ness
by `select_best_backend`; they are embedded as `Nat`.  The remaining `int`
fields can be negative (e.g. a failed `sysconf`) and are embedded as `Int`. -/
structure system_capabilities_t where
  has_dpdk : Nat
  has_af_xdp : Nat
  has_io_uring : Nat
  has_sendmmsg : Nat
  has_raw_socket : Nat
  kernel_version_major : Int
  kernel_version_minor : Int
  cpu_count : Int
  numa_nodes : Int
  deriving DecidableEq

/-- `select_best_backend` (driver_shim.c:915-930): test each flag in
priority order, falling through to the raw socket backend. -/
def select_best_backend (caps : system_capabilities_t) : backend_type_t :=
  if caps.has_dpdk ≠ 0 then .BACKEND_DPDK
  else if caps.has_af_xdp ≠ 0 then .BACKEND_AF_XDP
  else if caps.has_io_uring ≠ 0 then .BACKEND_IO_URING
  else if caps.has_sendmmsg ≠ 0 then .BACKEND_SENDMMSG
  else .BACKEND_RAW_SOCKET

/-- Availability of a backend according to a capability record, following
the spec's data model in which the raw socket backend is always available. -/
def backendAvailable (caps : system_capabilities_t) : backend_type_t → Bool
  | .BACKEND_DPDK => caps.has_dpdk != 0
  | .BACKEND_AF_XDP => caps.has_af_xdp != 0
  | .BACKEND_IO_URING => caps.has_io_uring != 0
  | .BACKEND_SENDMMSG => caps.has_sendmmsg != 0
  | .BACKEND_RAW_SOCKET => true
  | .BACKEND_NONE => false

/-- The spec's selection priority order, highest priority first. -/
def selectionOrder : List backend_type_t :=
  [.BACKEND_DPDK, .BACKEND_AF_XDP, .BACKEND_IO_URING, .BACKEND_SENDMMSG,
   .BACKEND_RAW_SOCKET]

/-- The selector as the spec words it, for the refinement comparison with
`select_best_backend`: the first available backend in the priority order
(the raw socket backend is always available, so the default value of the
search is never reached). -/
def select_spec (caps : system_capabilities_t) : backend_type_t :=
  (selectionOrder.find? (backendAvailable caps)).getD .BACKEND_NONE

/-- Pointwise order on the availability flags of two capability records. -/
def availLE (c1 c2 : system_capabilities_t) : Prop :=
  c1.has_dpdk ≤ c2.has_dpdk ∧ c1.has_af_xdp ≤ c2.has_af_xdp ∧
    c1.has_io_uring ≤ c2.has_io_uring ∧ c1.has_sendmmsg ≤ c2.has_sendmmsg ∧
    c1.has_raw_socket ≤ c2.has_raw_socket

instance (c1 c2 : system_capabilities_t) : Decidable (availLE c1 c2) := by
  unfold availLE
  infer_instance

/-- Drop the leading whitespace a `%d` conversion of `sscanf` skips. -/
def skipSpaces : List Char → List Char
  | c :: rest => if c.isWhitespace then skipSpaces rest else c :: rest
  | [] => []

/-- Consume a maximal run of decimal digits, accumulating their value. -/
def takeDigits (acc : Nat) : List Char → Nat × List Char
  | c :: rest =>
    if c.isDigit then takeDigits (acc * 10 + (c.toNat - 48)) rest
    else (acc, c :: rest)
  | [] => (acc, [])

/-- One `%d` conversion after whitespace skipping: an optional sign followed
by at least one digit; `none` when the conversion fails (no digit). -/
def scanIntFrom : List Char → Option (Int × List Char)
  | '-' :: rest =>
    match rest with
    | c :: _ =>
      if c.isDigit then
        let p := takeDigits 0 rest
        some (-(p.1 : Int), p.2)
      else none
    | [] => none
  | '+' :: rest =>
    match rest with
    | c :: _ =>
      if c.isDigit then
        let p := takeDigits 0 rest
        some ((p.1 : Int), p.2)
      else none
    | [] => none
  | c :: rest =>
    if c.isDigit then
      let p := takeDigits 0 (c :: rest)
      some ((p.1 : Int), p.2)
    else none
  | [] => none

/-- A full `%d` conversion: skip whitespace, then convert. -/
def scanInt (s : List Char) : Option (Int × List Char) :=
  scanIntFrom (skipSpaces s)

/-- Embedding of `sscanf(buf, "%d-%d", &start, &end) == 2`: both conversions
and the literal `-` must succeed for the NUMA range branch to be taken. -/
def scan_d_dash_d (s : List Char) : Option (Int × Int) :=
  match scanInt s with
  | some (a, rest) =>
    match rest with
    | '-' :: rest2 =>
      match scanInt rest2 with
      | some (b, _) => some (a, b)
      | none => none
    | _ => none
  | none => none

/-- Embedding of `sscanf(uts.release, "%d.%d", &major, &minor)`: each field
keeps its zero-initialised value when its conversion does not happen. -/
def scan_d_dot_d (s : List Char) : Int × Int :=
  match scanInt s with
  | none => (0, 0)
  | some (a, rest) =>
    match rest with
    | '.' :: rest2 =>
      match scanInt rest2 with
      | some (b, _) => (a, b)
      | none => (a, 0)
    | _ => (a, 0)

/-- The environment `detect_capabilities` reads on Linux: the `uname`
release string (`none` when `uname` fails), the first line read from
`/sys/devices/system/node/online` (`none` when the file cannot be opened or
read), the CPU count, and the compile-time feature macros `HAS_IO_URING`,
`HAS_AF_XDP`, `HAS_DPDK`. -/
structure LinuxEnv where
  uname_release : Option String
  node_online : Option String
  cpu_count : Int
  compiled_io_uring : Bool
  compiled_af_xdp : Bool
  compiled_dpdk : Bool

/-- `detect_capabilities` (driver_shim.c:854-913) on Linux: zero the record,
mark raw sockets available, store the CPU count, parse the kernel release
and gate the sendmmsg / io_uring / AF_XDP flags on it (the latter two also
on their compile-time macros), parse the NUMA node range, and return 0.
The returned `Int` is the C function's return value. -/
def detect_capabilities (env : LinuxEnv) : system_capabilities_t × Int :=
  let kv : Int × Int :=
    match env.uname_release with
    | some r => scan_d_dot_d r.toList
    | none => (0, 0)
  let has_sendmmsg : Nat := if kv.1 ≥ 3 then 1 else 0
  let has_io_uring : Nat :=
    if kv.1 > 5 ∨ (kv.1 = 5 ∧ kv.2 ≥ 1) then
      (if env.compiled_io_uring then 1 else 0)
    else 0
  let has_af_xdp : Nat :=
    if kv.1 > 4 ∨ (kv.1 = 4 ∧ kv.2 ≥ 18) then
      (if env.compiled_af_xdp then 1 else 0)
    else 0
  let numa_nodes : Int :=
    match env.node_online with
    | some buf =>
      match scan_d_dash_d buf.toList with
      | some (a, b) => b - a + 1
      | none => 1
    | none => 0
  let has_dpdk : Nat := if env.compiled_dpdk then 1 else 0
  (⟨has_dpdk, has_af_xdp, has_io_uring, has_sendmmsg, 1,
    kv.1, kv.2, env.cpu_count, numa_nodes⟩, 0)

/-- `raw_socket_send_ip` (driver_shim.c:86-96), instrumented with the
destination handed to `raw_socket_send`.  A buffer shorter than 20 bytes
returns −1 with no send attempted (`none`); otherwise the four bytes at
offset 16 are `memcpy`ed into `dst_ip` in buffer (network) order and the
buffer is sent there, `sendto_result` standing for the value the underlying
`sendto` system call returns. -/
def raw_socket_send_ip (sendto_result : Int) (data : List Byte) :
    Int × Option (List Byte) :=
  if data.length < 20 then (-1, none)
  else (sendto_result, some ((data.drop 16).take 4))

/-- `driver_stats_t` (declared in driver_shim.h, used at
driver_shim.c:548 and 619-632): the five `uint64_t` counters.  They are
embedded as `Nat`; no realisable run approaches the 64-bit wrap. -/
structure driver_stats_t where
  packets_sent : Nat
  packets_received : Nat
  bytes_sent : Nat
  bytes_received : Nat
  errors : Nat
  deriving DecidableEq

/-- The completion drain loop of `io_uring_send_batch`
(driver_shim.c:619-632), one list entry per loop iteration `j`:
`none` is an `io_uring_wait_cqe` call that fails (`ret < 0`), on which the
loop breaks with no completion consumed; `some r` is a successful wait
delivering a completion with `cqe->res = r`, which is counted as a success
(adding its byte count to `bytes_sent`) when `r ≥ 0` and as an error
otherwise, then released with `io_uring_cqe_seen`.  Returns `completed`,
the updated stats, and the number of completions consumed
(`io_uring_cqe_seen` calls). -/
def drain_completions :
    List (Option Int) → Nat → driver_stats_t → Nat × driver_stats_t × Nat
  | [], completed, st => (completed, st, 0)
  | none :: _, completed, st => (completed, st, 0)
  | some r :: rest, completed, st =>
    if 0 ≤ r then
      match drain_completions rest (completed + 1)
          { st with packets_sent := st.packets_sent + 1,
                    bytes_sent := st.bytes_sent + r.toNat } with
      | (c, st2, consumed) => (c, st2, consumed + 1)
    else
      match drain_completions rest completed
          { st with errors := st.errors + 1 } with
      | (c, st2, consumed) => (c, st2, consumed + 1)

/-- `io_uring_send_batch` (driver_shim.c:570-638), embedded over its
environment: `initialized` is the `io_uring_initialized` flag; `alloc_ok`
is whether the `calloc` pair for the scratch `msghdr`/`iovec` arrays
succeeds (on failure the C frees and returns −1 with nothing submitted);
`sqe_avail` is the number of free submission-queue entries, so
`io_uring_get_sqe` returns NULL (breaking the preparation loop) after
`sqe_avail` entries and `io_uring_submit` submits the prepared ones;
`wait_results j` describes the `j`-th `io_uring_wait_cqe` call of the
drain loop — `none` a failure (negative return, loop breaks, remaining
completions stay pending), `some r` success with completion result `r`.
Returns the C return value, the updated `io_uring_stats`, and the number
of completions consumed from the ring. -/
def io_uring_send_batch (initialized alloc_ok : Bool) (sqe_avail : Nat)
    (wait_results : Nat → Option Int) (count : Nat) (st : driver_stats_t) :
    Int × driver_stats_t × Nat :=
  if !initialized then (-1, st, 0)
  else if !alloc_ok then (-1, st, 0)
  else
    let submitted := min count sqe_avail
    let res := (List.range submitted).map wait_results
    let out := drain_completions res 0 st
    ((out.1 : Int), out.2.1, out.2.2)

/-- `FRAME_SIZE` (driver_shim.c:384) is `XSK_UMEM__DEFAULT_FRAME_SIZE`,
i.e. 4096 bytes. -/
def FRAME_SIZE : Nat := 4096

/-- `NUM_FRAMES` (driver_shim.c:385). -/
def NUM_FRAMES : Nat := 4096

/-- Userspace-visible ring state of the AF_XDP backend: the frame addresses
currently posted on the fill ring, the frame addresses written into
submitted tx descriptors, and the cached producer index that the next
`xsk_ring_prod__reserve` on the tx ring hands out. -/
structure XdpState where
  fill : List Nat
  tx : List Nat
  tx_prod : Nat
  deriving DecidableEq

/-- Ring state established by `init_af_xdp` (driver_shim.c:430-438): the
fill ring is populated with all `NUM_FRAMES` addresses
`0, FRAME_SIZE, …, (NUM_FRAMES-1)*FRAME_SIZE`; nothing is on the tx ring. -/
def init_af_xdp_state : XdpState :=
  ⟨(List.range NUM_FRAMES).map (fun i => i * FRAME_SIZE), [], 0⟩

/-- `af_xdp_send` (driver_shim.c:441-465): reserve one tx slot at the
cached producer index `idx`, write the descriptor with
`desc->addr = idx * FRAME_SIZE`, and submit.  Returns the new state and the
address written. -/
def af_xdp_send (s : XdpState) : XdpState × Nat :=
  let idx := s.tx_prod
  let addr := idx * FRAME_SIZE
  (⟨s.fill, s.tx ++ [addr], idx + 1⟩, addr)

/-- `af_xdp_send_batch` (driver_shim.c:467-489): reserve `reserved ≤ count`
tx slots starting at the cached producer index `idx` (`reserved` is chosen
by `xsk_ring_prod__reserve` from the ring space) and write descriptor
addresses `(idx + i) * FRAME_SIZE` for `i < reserved`.  Returns the new
state and the list of addresses written. -/
def af_xdp_send_batch (s : XdpState) (reserved : Nat) : XdpState × List Nat :=
  let addrs := (List.range reserved).map (fun i => (s.tx_prod + i) * FRAME_SIZE)
  (⟨s.fill, s.tx ++ addrs, s.tx_prod + reserved⟩, addrs)

/-! ### Helper lemmas -/

/-- Running the fold loop with fuel at least the accumulator yields a value
that is at most `0xFFFF`, congruent to the input mod `0xFFFF`, and positive
whenever the input is. -/
theorem foldAux_spec : ∀ (fuel sum : Nat), sum ≤ fuel →
    foldAux fuel sum ≤ 65535 ∧ foldAux fuel sum % 65535 = sum % 65535 ∧
      (0 < sum → 0 < foldAux fuel sum)
  | 0, sum, h => by
    have hz : sum = 0 := Nat.le_zero.mp h
    subst hz
    exact ⟨by simp [foldAux], rfl, fun h => absurd h (by simp)⟩
  | fuel + 1, sum, h => by
    by_cases hlt : sum < 65536
    · have he : foldAux (fuel + 1) sum = sum := by simp [foldAux, hlt]
      rw [he]
      exact ⟨by omega, rfl, fun h => h⟩
    · have hge : 65536 ≤ sum := Nat.not_lt.mp hlt
      have hdm := Nat.div_add_mod sum 65536
      have hdpos : 1 ≤ sum / 65536 := Nat.one_le_div_iff (by norm_num) |>.mpr hge
      have hnext : sum % 65536 + sum / 65536 ≤ fuel := by
        have hm : sum % 65536 < 65536 := Nat.mod_lt _ (by norm_num)
        omega
      have ih := foldAux_spec fuel (sum % 65536 + sum / 65536) hnext
      have heq : foldAux (fuel + 1) sum = foldAux fuel (sum % 65536 + sum / 65536) := by
        simp [foldAux, hlt]
      refine ⟨heq ▸ ih.1, ?_, ?_⟩
      · rw [heq, ih.2.1]
        omega
      · intro _
        exact heq ▸ ih.2.2 (by omega)

/-- The fold result is at most `0xFFFF`. -/
theorem foldCarry_le (sum : Nat) : foldCarry sum ≤ 65535 :=
  (foldAux_spec sum sum le_rfl).1

/-- The fold preserves the residue mod `0xFFFF` (end-around carry is
reduction mod `2^16 - 1`). -/
theorem foldCarry_mod (sum : Nat) : foldCarry sum % 65535 = sum % 65535 :=
  (foldAux_spec sum sum le_rfl).2.1

/-- The fold of a positive accumulator is positive. -/
theorem foldCarry_pos (sum : Nat) (h : 0 < sum) : 0 < foldCarry sum :=
  (foldAux_spec sum sum le_rfl).2.2 h

/-- A positive accumulator divisible by `0xFFFF` folds to exactly `0xFFFF`. -/
theorem foldCarry_full (sum : Nat) (hpos : 0 < sum) (hmod : sum % 65535 = 0) :
    foldCarry sum = 65535 := by
  have h1 := foldCarry_le sum
  have h2 := foldCarry_mod sum
  have h3 := foldCarry_pos sum hpos
  omega

/-- Splitting the word list at an even byte offset splits the byte pairing. -/
theorem words16_append : ∀ (s t : List Byte), Even s.length →
    words16 (s ++ t) = words16 s ++ words16 t
  | [], _, _ => by simp [words16]
  | [_], _, h => by simp [Nat.even_iff] at h
  | a :: b :: rest, t, h => by
    have hr : Even rest.length := by
      simp only [List.length_cons, Nat.even_iff] at h ⊢
      omega
    simp [words16, words16_append rest t hr]

/-- The wrapping 32-bit accumulator always holds a value below `2^32`. -/
theorem sum32_lt (ws : List Nat) : sum32 ws < 4294967296 := by
  suffices h : ∀ (l : List Nat) (acc : Nat), acc < 4294967296 →
      l.foldl (fun sum w => (sum + w) % 4294967296) acc < 4294967296 by
    exact h ws 0 (by norm_num)
  intro l
  induction l with
  | nil =>
    intro acc hacc
    simpa using hacc
  | cons w rest ih =>
    intro acc _
    simp only [List.foldl_cons]
    exact ih _ (Nat.mod_lt _ (by norm_num))

/-- Accumulating one more word adds it with a final wrap. -/
theorem sum32_append_single (ws : List Nat) (w : Nat) :
    sum32 (ws ++ [w]) = (sum32 ws + w) % 4294967296 := by
  simp [sum32, List.foldl_append]

/-- Headroom: adding `0xFFFF` minus the folded accumulator back onto the
accumulator never reaches `2^32`, so the wrap in the recomputation is the
identity.  (Writing `W = 65535·b + r` and `foldCarry W = 65535·a + r` with
`W < 2^32 = 65535·65537 + 1` and `foldCarry W ≤ 65535`, the sum is
`65535·(b + 1 − a)` with `b − a ≤ 65536`.) -/
theorem add_complement_lt (W : Nat) (hW : W < 4294967296) :
    W + (65535 - foldCarry W) < 4294967296 := by
  have h1 := foldCarry_le W
  have h2 := foldCarry_mod W
  have h3 : 0 < W → 0 < foldCarry W := foldCarry_pos W
  omega

/-- The two appended checksum bytes form the single word `checksum`. -/
theorem words16_checksumBytes (s : List Byte) :
    words16 (checksumBytes s) = [calculate_checksum s] := by
  have hle : calculate_checksum s ≤ 65535 := by
    show 65535 - foldCarry (sum32 (words16 s)) ≤ 65535
    omega
  simp only [checksumBytes, words16, List.cons.injEq, and_true]
  omega

/-- Closed form of the completion drain loop when every wait succeeds: it
returns the number of nonnegative results, adds that number to
`packets_sent`, adds the byte counts of the nonnegative results to
`bytes_sent`, adds the number of negative results to `errors`, and consumes
one completion per list entry. -/
theorem drain_completions_spec :
    ∀ (rs : List Int) (k : Nat) (st : driver_stats_t),
    drain_completions (rs.map Option.some) k st =
      (k + rs.countP (fun r => decide (0 ≤ r)),
       { st with
          packets_sent := st.packets_sent + rs.countP (fun r => decide (0 ≤ r)),
          bytes_sent := st.bytes_sent +
            ((rs.filter (fun r => decide (0 ≤ r))).map Int.toNat).sum,
          errors := st.errors + rs.countP (fun r => decide (r < 0)) },
       rs.length)
  | [], k, st => by simp [drain_completions]
  | r :: rest, k, st => by
    by_cases hr : (0 : Int) ≤ r
    · rw [List.map_cons, drain_completions, if_pos hr,
        drain_completions_spec rest]
      simp [List.countP_cons, List.filter_cons, hr, not_lt.mpr hr,
        driver_stats_t.mk.injEq, Prod.ext_iff]
      omega
    · rw [List.map_cons, drain_completions, if_neg hr,
        drain_completions_spec rest]
      simp [List.countP_cons, List.filter_cons, hr, lt_of_not_le hr,
        driver_stats_t.mk.injEq, Prod.ext_iff]
      omega

/-! ### Claim theorems -/

/-- C1: the claimed fill/tx exclusion fails on the code.  Immediately after
`init_af_xdp` posts all `NUM_FRAMES` frame addresses to the fill ring,
`af_xdp_send` (and a one-packet `af_xdp_send_batch`) writes tx descriptor
address `0 = idx * FRAME_SIZE`, and address 0 is still posted to the fill
ring at that moment — the send path computes addresses from tx ring indices
and never consults or removes fill-ring addresses. -/
theorem af_xdp_fill_tx_overlap :
    (af_xdp_send init_af_xdp_state).2 = 0 ∧
    (af_xdp_send_batch init_af_xdp_state 1).2 = [0] ∧
    (af_xdp_send init_af_xdp_state).1.fill = init_af_xdp_state.fill ∧
    0 ∈ init_af_xdp_state.fill ∧
    0 ∈ (af_xdp_send init_af_xdp_state).1.tx := by
  have hfill : ∀ s : XdpState, (af_xdp_send s).1.fill = s.fill := fun _ => rfl
  refine ⟨rfl, rfl, hfill _, ?_, by simp [af_xdp_send, init_af_xdp_state]⟩
  simp only [init_af_xdp_state, List.mem_map, List.mem_range]
  exact ⟨0, by norm_num [NUM_FRAMES], by norm_num⟩

/-- C2 counterexample: on the S2 segment `calculate_transport_checksum`
does not return the claimed 0x8D79 — not when the addresses
192.168.1.1 / 192.168.1.2 are passed as 32-bit big-endian values
(0xC0A80101 / 0xC0A80102, the reading under which the pseudo-header halves
are the RFC ones), and not when passed as a little-endian host's
representation of their network-byte-order form (0x0101A8C0 / 0x0201A8C0). -/
theorem transport_checksum_s2_not_8D79 :
    calculate_transport_checksum 0xC0A80101 0xC0A80102 17 s2_segment ≠ 0x8D79 ∧
    calculate_transport_checksum 0x0101A8C0 0x0201A8C0 17 s2_segment ≠ 0x8D79 := by
  decide

/-- C2 as amended: on the S2 segment the computed transport checksum is
0x3DAE for the big-endian address values (0x6C7F for the little-endian-host
reading), and recomputing over the segment with the checksum field filled
in yields 0x0000. -/
theorem transport_checksum_s2 :
    calculate_transport_checksum 0xC0A80101 0xC0A80102 17 s2_segment = 0x3DAE ∧
    calculate_transport_checksum 0x0101A8C0 0x0201A8C0 17 s2_segment = 0x6C7F ∧
    calculate_transport_checksum 0xC0A80101 0xC0A80102 17
      (s2_segment_filled 0x3DAE) = 0 := by
  decide

/-- C3: `calculate_checksum` on the S1 IPv4 header returns 0xB1E6. -/
theorem ipv4_header_checksum_s1 : calculate_checksum s1_header = 0xB1E6 := by
  decide

/-- C4 counterexample: for the odd-length sequence [0x01] the computed
checksum is 0xFEFF, and recomputing over [0x01, 0xFE, 0xFF] yields 0xFF00 —
neither 0x0000 nor the 0xFFFF of the 0/0xFFFF convention — because the
appended checksum bytes land at an odd offset and pair across the
boundary. -/
theorem checksum_roundtrip_odd_fails :
    calculate_checksum ([(1 : Byte)] ++ checksumBytes [(1 : Byte)]) = 0xFF00 ∧
    calculate_checksum ([(1 : Byte)] ++ checksumBytes [(1 : Byte)]) ≠ 0 ∧
    calculate_checksum ([(1 : Byte)] ++ checksumBytes [(1 : Byte)]) ≠ 65535 := by
  decide

/-- C4 as amended: for every byte sequence of even length, extending it
with the two bytes of its computed checksum, high byte first, and
recomputing over the extension yields exactly 0x0000 — including when the
32-bit accumulator wraps, since the recomputation's accumulator never wraps
past the original one (`add_complement_lt`). -/
theorem checksum_roundtrip_even (s : List Byte) (heven : Even s.length) :
    calculate_checksum (s ++ checksumBytes s) = 0 := by
  have hsplit : words16 (s ++ checksumBytes s)
      = words16 s ++ [calculate_checksum s] := by
    rw [words16_append s _ heven, words16_checksumBytes]
  have hW := sum32_lt (words16 s)
  have hc : calculate_checksum s
      = 65535 - foldCarry (sum32 (words16 s)) := rfl
  have hhead := add_complement_lt (sum32 (words16 s)) hW
  have hx32 : sum32 (words16 (s ++ checksumBytes s))
      = sum32 (words16 s) + calculate_checksum s := by
    rw [hsplit, sum32_append_single]
    exact Nat.mod_eq_of_lt (by rw [hc]; exact hhead)
  have hSle := foldCarry_le (sum32 (words16 s))
  have hSmod := foldCarry_mod (sum32 (words16 s))
  have hz : sum32 (words16 s) = 0 → foldCarry (sum32 (words16 s)) = 0 := by
    intro h
    rw [h]
    rfl
  have hpos : 0 < sum32 (words16 s) + calculate_checksum s := by
    rcases Nat.eq_zero_or_pos (sum32 (words16 s)) with h | h
    · have := hz h
      omega
    · omega
  have hdiv : (sum32 (words16 s) + calculate_checksum s) % 65535 = 0 := by
    omega
  have hfull := foldCarry_full _ hpos hdiv
  have hdef : calculate_checksum (s ++ checksumBytes s)
      = 65535 - foldCarry (sum32 (words16 (s ++ checksumBytes s))) := rfl
  rw [hdef, hx32, hfull]

/-- Witness for C4: the round trip evaluated on the two-byte buffer
[0x45, 0x00]. -/
theorem checksum_roundtrip_even_witness :
    Even ([(0x45 : Byte), 0x00]).length ∧
    calculate_checksum ([(0x45 : Byte), 0x00] ++ checksumBytes [0x45, 0x00]) = 0 :=
  ⟨by decide, checksum_roundtrip_even [0x45, 0x00] (by decide)⟩

/-- C5: `select_best_backend` returns the first available backend in the
priority order [dpdk, af_xdp, io_uring, sendmmsg, raw_socket] (stated as a
refinement of `select_spec`, which is that search written out), and in
particular returns sendmmsg when only sendmmsg is flagged and af_xdp when
af_xdp, io_uring and sendmmsg are flagged. -/
theorem select_best_backend_first_available :
    (∀ caps, select_best_backend caps = select_spec caps) ∧
    select_best_backend ⟨0, 0, 0, 1, 0, 3, 10, 0, 0⟩ = .BACKEND_SENDMMSG ∧
    select_best_backend ⟨0, 1, 1, 1, 0, 0, 0, 0, 0⟩ = .BACKEND_AF_XDP := by
  refine ⟨?_, by decide, by decide⟩
  intro caps
  cases h1 : caps.has_dpdk != 0 <;>
  cases h2 : caps.has_af_xdp != 0 <;>
  cases h3 : caps.has_io_uring != 0 <;>
  cases h4 : caps.has_sendmmsg != 0 <;>
  (have p1 := h1; have p2 := h2; have p3 := h3; have p4 := h4;
   simp only [bne_iff_ne, bne_eq_false_iff_eq] at p1 p2 p3 p4;
   simp [select_best_backend, select_spec, selectionOrder, backendAvailable,
     List.find?, h1, h2, h3, h4, p1, p2, p3, p4])

/-- C6: the selector is monotone — if the availability flags of `c1` are
pointwise at most those of `c2`, the backend selected for `c1` has
selection priority (= enum code) at most that of the backend selected for
`c2`. -/
theorem select_best_backend_monotone (c1 c2 : system_capabilities_t)
    (h : availLE c1 c2) :
    (select_best_backend c1).code ≤ (select_best_backend c2).code := by
  obtain ⟨h1, h2, h3, h4, h5⟩ := h
  unfold select_best_backend
  split_ifs <;> simp only [backend_type_t.code] <;> omega

/-- Witness for C6: monotonicity applied to a record with only sendmmsg
(and raw sockets) against one that additionally has af_xdp and io_uring. -/
theorem select_best_backend_monotone_witness :
    availLE ⟨0, 0, 0, 1, 1, 3, 10, 4, 1⟩ ⟨0, 1, 1, 1, 1, 5, 15, 4, 1⟩ ∧
    (select_best_backend ⟨0, 0, 0, 1, 1, 3, 10, 4, 1⟩).code ≤
      (select_best_backend ⟨0, 1, 1, 1, 1, 5, 15, 4, 1⟩).code :=
  ⟨by decide, select_best_backend_monotone _ _ (by decide)⟩

/-- C7: the NUMA-node field of the capability probe — content `"0-3\n"`
gives `numa_nodes = 4` (range end − start + 1), a single integer `"0\n"`
gives `numa_nodes = 1`, an unreadable file leaves `numa_nodes = 0`, and
`detect_capabilities` returns 0 in every one of these cases, whatever the
rest of the environment is. -/
theorem detect_capabilities_numa_cases :
    ∀ (u : Option String) (c : Int) (f1 f2 f3 : Bool),
    (detect_capabilities ⟨u, some "0-3\n", c, f1, f2, f3⟩).1.numa_nodes = 4 ∧
    (detect_capabilities ⟨u, some "0\n", c, f1, f2, f3⟩).1.numa_nodes = 1 ∧
    (detect_capabilities ⟨u, none, c, f1, f2, f3⟩).1.numa_nodes = 0 ∧
    (detect_capabilities ⟨u, some "0-3\n", c, f1, f2, f3⟩).2 = 0 ∧
    (detect_capabilities ⟨u, some "0\n", c, f1, f2, f3⟩).2 = 0 ∧
    (detect_capabilities ⟨u, none, c, f1, f2, f3⟩).2 = 0 :=
  fun _ _ _ _ _ => ⟨rfl, rfl, rfl, rfl, rfl, rfl⟩

/-- C8: the probe's availability gates — `has_sendmmsg` is set exactly when
the stored kernel major version is at least 3; `has_io_uring` exactly when
the kernel is 5.1+ and `HAS_IO_URING` was compiled in; `has_af_xdp` exactly
when the kernel is 4.18+ and `HAS_AF_XDP` was compiled in. -/
theorem detect_capabilities_version_gates (env : LinuxEnv) :
    ((detect_capabilities env).1.has_sendmmsg ≠ 0 ↔
        (detect_capabilities env).1.kernel_version_major ≥ 3) ∧
      ((detect_capabilities env).1.has_io_uring ≠ 0 ↔
        (((detect_capabilities env).1.kernel_version_major > 5 ∨
          ((detect_capabilities env).1.kernel_version_major = 5 ∧
           (detect_capabilities env).1.kernel_version_minor ≥ 1)) ∧
         env.compiled_io_uring = true)) ∧
      ((detect_capabilities env).1.has_af_xdp ≠ 0 ↔
        (((detect_capabilities env).1.kernel_version_major > 4 ∨
          ((detect_capabilities env).1.kernel_version_major = 4 ∧
           (detect_capabilities env).1.kernel_version_minor ≥ 18)) ∧
         env.compiled_af_xdp = true)) := by
  obtain ⟨u, no, c, f1, f2, f3⟩ := env
  simp only [detect_capabilities]
  cases f1 <;> cases f2 <;> split_ifs <;> simp_all

/-- C9 counterexample: the claim fails as stated on the code's failure
paths.  When the first `io_uring_wait_cqe` call fails on a 2-packet batch,
the function returns having consumed none of its own two submissions'
completions — they remain pending across calls; and when the scratch
`calloc` fails, the function returns −1 rather than the number of
nonnegative completions (0). -/
theorem io_uring_send_batch_failure_pending :
    (io_uring_send_batch true true 256 (fun _ => none) 2
      ⟨0, 0, 0, 0, 0⟩).2.2 ≠ min 2 256 ∧
    (io_uring_send_batch true false 256 (fun _ => some 5) 2
      ⟨0, 0, 0, 0, 0⟩).1 ≠ 0 := by
  decide

/-- C9 as amended: with the ring initialised, the scratch allocation
succeeding, and every `io_uring_wait_cqe` call succeeding (one completion
arriving per submitted operation), `io_uring_send_batch` submits
`min count sqe_avail` operations, returns the number of completions with
nonnegative result, adds that number to `packets_sent` and their byte
counts to `bytes_sent`, increments `errors` once per negative completion,
and consumes exactly one completion per submission before returning. -/
theorem io_uring_send_batch_accounting (sqe_avail : Nat)
    (cqe_results : Nat → Int) (count : Nat) (st : driver_stats_t) :
    (io_uring_send_batch true true sqe_avail
        (fun j => some (cqe_results j)) count st).1 =
      ((((List.range (min count sqe_avail)).map cqe_results).countP
        (fun r => decide (0 ≤ r)) : Nat) : Int) ∧
    (io_uring_send_batch true true sqe_avail
        (fun j => some (cqe_results j)) count st).2.1.packets_sent =
      st.packets_sent + ((List.range (min count sqe_avail)).map cqe_results).countP
        (fun r => decide (0 ≤ r)) ∧
    (io_uring_send_batch true true sqe_avail
        (fun j => some (cqe_results j)) count st).2.1.bytes_sent =
      st.bytes_sent + ((((List.range (min count sqe_avail)).map cqe_results).filter
        (fun r => decide (0 ≤ r))).map Int.toNat).sum ∧
    (io_uring_send_batch true true sqe_avail
        (fun j => some (cqe_results j)) count st).2.1.errors =
      st.errors + ((List.range (min count sqe_avail)).map cqe_results).countP
        (fun r => decide (r < 0)) ∧
    (io_uring_send_batch true true sqe_avail
        (fun j => some (cqe_results j)) count st).2.2 =
      min count sqe_avail := by
  have h := drain_completions_spec
    ((List.range (min count sqe_avail)).map cqe_results) 0 st
  rw [List.map_map] at h
  simp only [Function.comp_def] at h
  simp [io_uring_send_batch, h]

/-- C10: `raw_socket_send_ip` rejects every buffer shorter than 20 bytes
with −1 and no send attempt, and for every buffer of at least 20 bytes the
destination handed to `raw_socket_send` is exactly bytes 16-19 of the
buffer in network (buffer) order, with the underlying send's result passed
through. -/
theorem raw_socket_send_ip_dest (res : Int) (data : List Byte) :
    (data.length < 20 → raw_socket_send_ip res data = (-1, none)) ∧
    (∀ h : 20 ≤ data.length,
      raw_socket_send_ip res data =
        (res, some [data.get ⟨16, by omega⟩, data.get ⟨17, by omega⟩,
                    data.get ⟨18, by omega⟩, data.get ⟨19, by omega⟩])) := by
  constructor
  · intro hshort
    rw [raw_socket_send_ip, if_pos hshort]
  · intro h
    have hbytes : (data.drop 16).take 4 =
        [data.get ⟨16, by omega⟩, data.get ⟨17, by omega⟩,
         data.get ⟨18, by omega⟩, data.get ⟨19, by omega⟩] := by
      apply List.ext_getElem
      · simp
        omega
      · intro i h1 h2
        simp only [List.getElem_take, List.getElem_drop, List.get_eq_getElem] at h1 ⊢
        have hi : i < 4 := by
          simp only [List.length_take, List.length_drop] at h1
          omega
        interval_cases i <;> simp
    rw [raw_socket_send_ip, if_neg (by omega), hbytes]

/-- Witness for C10: the short-buffer branch on a 1-byte buffer and the
destination extraction on the S1 header, whose bytes 16-19 are
172.16.10.12. -/
theorem raw_socket_send_ip_dest_witness :
    raw_socket_send_ip 42 [(0x45 : Byte)] = (-1, none) ∧
    raw_socket_send_ip 42 s1_header = (42, some [0xAC, 0x10, 0x0A, 0x0C]) := by
  constructor
  · exact (raw_socket_send_ip_dest 42 [(0x45 : Byte)]).1 (by decide)
  · have h := (raw_socket_send_ip_dest 42 s1_header).2 (by decide)
    rw [h]
    decide

end DriverShim
